import Mathlib

/-!
# Verification of the ai-assist query pipeline and job orchestrator

Shallow embedding of `app/services/ai_service.py` and
`app/services/training_service.py`.  External collaborators (the Weaviate
vector index, the Gemini generative model, the sentence-transformer
embedding model, the SQL session) are modelled as explicit inputs: the
index's raw result list, availability/raise flags for each client, and the
document table as a list of rows.  Every `try/except` of the source is
modelled as a total function whose branches mirror the handler's returns.
-/

namespace AiAssist

/-! ## Vector index results (`search_similar_documents`) -/

/-- A raw object returned by the Weaviate `near_vector` query: the stored
properties (`doc_id`, `title`, `content`, `knowledge_base_tier`) together
with `metadata.distance`.  The tier is `Option` because the property lookup
in the source is `properties.get("knowledge_base_tier", 999)`; the distance
is `Option` because `metadata.distance` may be `None`. -/
structure RawChunk where
  doc_id : Nat
  title : String
  content : String
  knowledge_base_tier : Option Nat
  distance : Option ℚ
  deriving DecidableEq, Repr

/-- `obj.properties.get("knowledge_base_tier", 999)`. -/
def tierOf (c : RawChunk) : Nat := c.knowledge_base_tier.getD 999

/-- `1.0 - obj.metadata.distance if obj.metadata.distance else 0.5`:
Python truthiness makes both a missing distance and a distance of exactly
`0.0` take the `0.5` branch; otherwise the value is `1 - d`, with no
clamping. -/
def relevance_score (distance : Option ℚ) : ℚ :=
  match distance with
  | none => 1/2
  | some d => if d = 0 then 1/2 else 1 - d

/-- One entry of the `formatted_results` list built at the end of
`search_similar_documents` (the `metadata` field is omitted: it is an
opaque JSON payload). -/
structure FormattedChunk where
  doc_id : Nat
  title : String
  content : String
  relevance_score : ℚ
  deriving DecidableEq, Repr

/-- Formatting of one selected object: content preview truncated to 200
characters, relevance derived from the reported distance. -/
def formatChunk (c : RawChunk) : FormattedChunk :=
  { doc_id := c.doc_id
    title := c.title
    content := c.content.take 200
    relevance_score := relevance_score c.distance }

/-- The selection performed by `search_similar_documents` on the objects
returned by the index.  On the normal path the objects are filtered by
`tier <= knowledge_base_tier` and truncated to `limit`; when the inner
`try` raises, the `except` branch re-queries and keeps
`result.objects[:limit]` with no tier filter. -/
def selectChunks (innerRaises : Bool) (results : List RawChunk)
    (knowledge_base_tier lim : Nat) : List RawChunk :=
  if innerRaises then results.take lim
  else (results.filter (fun c => tierOf c ≤ knowledge_base_tier)).take lim

/-- `AIService.search_similar_documents`.  `ready` is
`weaviate_client and weaviate_client.is_ready()`; `innerRaises` says the
inner (filtered) query raised; `outerRaises` says the outer `try` raised,
in which case the handler returns `[]`.  `results` is the list of objects
the index returns for the query embedding. -/
def search_similar_documents (ready innerRaises outerRaises : Bool)
    (results : List RawChunk) (knowledge_base_tier lim : Nat) :
    List FormattedChunk :=
  if outerRaises then []
  else if ready then
    (selectChunks innerRaises results knowledge_base_tier lim).map formatChunk
  else []

/-! ## Response synthesis (`generate_ai_response`, `process_query`) -/

/-- One entry of the `sources` list built by `generate_ai_response`. -/
structure SourceRef where
  document_id : Nat
  title : String
  relevance_score : ℚ
  content_preview : String
  deriving DecidableEq, Repr

/-- The source builds a preview of at most 150 characters with an ellipsis
suffix when the content is longer. -/
def mkSource (d : FormattedChunk) : SourceRef :=
  { document_id := d.doc_id
    title := d.title
    relevance_score := d.relevance_score
    content_preview :=
      if 150 < d.content.length then d.content.take 150 ++ "..." else d.content }

/-- The dictionary returned by `generate_ai_response` / `process_query`. -/
structure AIAnswer where
  response : String
  confidence : ℚ
  sources : List SourceRef
  processing_time : ℚ
  deriving DecidableEq, Repr

/-- `AIService.generate_ai_response`.  `genaiAvailable` is whether
`self.genai_model` is set; `genaiRaises` is whether the body of the `try`
(dominated by the `generate_content` call) raises; `synthText` stands for
the text the generative model produces on the success path.  The three
branches mirror the source: unavailable → confidence `0.3`, empty sources;
raised → confidence `0.1`, empty sources; success → confidence `0.8` with
one source per context document. -/
def generate_ai_response (genaiAvailable genaiRaises : Bool)
    (query synthText : String) (context_documents : List FormattedChunk) :
    AIAnswer :=
  if ¬genaiAvailable then
    { response := "I understand your query: " ++ query ++
        ". However, the AI service is currently unavailable."
      confidence := 3/10
      sources := []
      processing_time := 1/10 }
  else if genaiRaises then
    { response := "I encountered an error while processing your query: " ++ query
      confidence := 1/10
      sources := []
      processing_time := 1/10 }
  else
    { response := synthText
      confidence := 8/10
      sources := context_documents.map mkSource
      processing_time := 1 }

/-- `AIService.process_query`: search then synthesize (`limit=5`).  Both
callees are total (each catches all its exceptions), so the outer
`try/except` of `process_query` is dead and the pipeline is total by
construction. -/
def process_query (ready innerRaises outerRaises genaiAvailable genaiRaises : Bool)
    (indexResults : List RawChunk) (query synthText : String)
    (knowledge_base_tier : Nat) : AIAnswer :=
  let relevant_docs :=
    search_similar_documents ready innerRaises outerRaises indexResults
      knowledge_base_tier 5
  generate_ai_response genaiAvailable genaiRaises query synthText relevant_docs

/-! ## Embedding generation (`generate_embeddings`) -/

/-- The hash-based fallback of `generate_embeddings`, as a function of the
16-byte md5 digest of the text (`hexdigest` is 32 hex characters read in
pairs): each byte is scaled by `1/255`, the vector is padded with zeros to
384 entries and truncated to 384. -/
def fallbackEmbedding (digestBytes : List Nat) : List ℚ :=
  ((digestBytes.map fun b : ℕ => (b : ℚ) / 255) ++
    List.replicate (384 - digestBytes.length) 0).take 384

/-- `AIService.generate_embeddings`.  `raises` is whether the body of the
`try` raises (handler: the all-zero 384-vector); `modelAvailable` is
whether the sentence transformer loaded, in which case the external model's
vector `primary` is returned; otherwise the deterministic md5 fallback is
used.  `digestBytes` stands for the md5 digest of the input text. -/
def generate_embeddings (modelAvailable raises : Bool)
    (digestBytes : List Nat) (primary : List ℚ) : List ℚ :=
  if raises then List.replicate 384 0
  else if modelAvailable then primary
  else fallbackEmbedding digestBytes

/-! ## Training service: data model (`app/models/training.py`) -/

/-- `TrainingStatusEnum`. -/
inductive TrainingStatusEnum where
  | pending | running | completed | failed | cancelled | paused
  deriving DecidableEq, Repr

/-- `TrainingTypeEnum`. -/
inductive TrainingTypeEnum where
  | full | incremental | batch | real_time
  deriving DecidableEq, Repr

/-- `ModelTypeEnum`. -/
inductive ModelTypeEnum where
  | embedding | classification | generation | retrieval
  deriving DecidableEq, Repr

/-- A row of the `documents` table, restricted to the columns the training
service reads (`id` is the primary key, so distinct rows have distinct
ids). -/
structure Document where
  id : Nat
  knowledge_base_tier : Nat
  deriving DecidableEq, Repr

/-! ## Document-access validation (`create_training_job`, `process_batch`) -/

/-- The document table is modelled as a list of rows; a well-formed table
has pairwise distinct primary keys. -/
def DocTable := List Document

/-- `db.query(Document).filter(Document.id.in_(document_ids),
Document.knowledge_base_tier <= knowledge_base_tier).count()`. -/
def accessibleCount (db : List Document) (document_ids : List Nat)
    (knowledge_base_tier : Nat) : Nat :=
  (db.filter fun d =>
    d.id ∈ document_ids ∧ d.knowledge_base_tier ≤ knowledge_base_tier).length

/-- `id` resolves to a document visible at `knowledge_base_tier`. -/
def resolvesAt (db : List Document) (i knowledge_base_tier : Nat) : Prop :=
  ∃ d ∈ db, d.id = i ∧ d.knowledge_base_tier ≤ knowledge_base_tier

instance (db : List Document) (i t : Nat) : Decidable (resolvesAt db i t) := by
  unfold resolvesAt; infer_instance

/-- `TrainingService._estimate_training_duration`:
`base_time.get(training_type, 30) + document_count * 2` where `base_time`
maps full→60, incremental→30, batch→45, real_time→15 (valid enum values
always hit the table). -/
def estimate_training_duration (training_type : TrainingTypeEnum)
    (document_count : Nat) : Nat :=
  (match training_type with
   | .full => 60
   | .incremental => 30
   | .batch => 45
   | .real_time => 15) + document_count * 2

/-- The training-job row `create_training_job` persists (columns the spec
claims are about). -/
structure TrainingJobRow where
  name : String
  training_type : TrainingTypeEnum
  model_type : ModelTypeEnum
  knowledge_base_tier : Nat
  status : TrainingStatusEnum
  estimated_duration_minutes : Nat
  deriving DecidableEq, Repr

/-- `TrainingService.create_training_job`.  When `document_ids` is
non-empty and the count of accessible matching rows differs from
`len(document_ids)`, a `ValueError` is raised (and the session rolled
back: nothing is persisted, which the `Except.error` branch models by
carrying no row); otherwise a PENDING job is persisted with the estimated
duration. -/
def create_training_job (db : List Document) (name : String)
    (training_type : TrainingTypeEnum) (model_type : ModelTypeEnum)
    (knowledge_base_tier : Nat) (document_ids : List Nat) :
    Except String TrainingJobRow :=
  if document_ids ≠ [] ∧
      accessibleCount db document_ids knowledge_base_tier ≠ document_ids.length
  then .error "Some documents are not accessible"
  else .ok
    { name := name
      training_type := training_type
      model_type := model_type
      knowledge_base_tier := knowledge_base_tier
      status := .pending
      estimated_duration_minutes :=
        estimate_training_duration training_type document_ids.length }

/-! ## Batch processing (`process_batch`, `_execute_batch_processing`) -/

/-- The in-memory `batch_processors[batch_id]` record. -/
structure BatchRun where
  status : String
  total_documents : Nat
  processed_documents : Nat
  progress_percentage : ℚ
  deriving DecidableEq, Repr

/-- The record `process_batch` registers before spawning the background
task. -/
def initBatchRun (n : Nat) : BatchRun :=
  { status := "processing"
    total_documents := n
    processed_documents := 0
    progress_percentage := 0 }

/-- `TrainingService.process_batch`: fetch the accessible documents among
`document_ids`, raise when the count differs from `len(document_ids)`
(nothing is registered then), otherwise register a `processing` run over
the fetched documents. -/
def process_batch (db : List Document) (document_ids : List Nat)
    (knowledge_base_tier : Nat) : Except String BatchRun :=
  if accessibleCount db document_ids knowledge_base_tier ≠ document_ids.length
  then .error "Some documents are not accessible or do not exist"
  else .ok (initBatchRun (accessibleCount db document_ids knowledge_base_tier))

/-- The per-document update of `_execute_batch_processing`:
`processed_documents = i + 1`,
`progress_percentage = ((i + 1) / len(documents)) * 100` (the division is
by the run's total, which equals `len(documents)`). -/
def batchUpdate (b : BatchRun) (i : Nat) : BatchRun :=
  { b with
    processed_documents := i + 1
    progress_percentage := ((i : ℚ) + 1) / (b.total_documents : ℚ) * 100 }

/-- The loop of `_execute_batch_processing` over document indices. -/
def batchLoop (b : BatchRun) : List Nat → BatchRun
  | [] => b
  | i :: rest => batchLoop (batchUpdate b i) rest

/-- The states of the run observable at the loop boundaries (before each
iteration and after the last). -/
def batchLoopObs (b : BatchRun) : List Nat → List BatchRun
  | [] => [b]
  | i :: rest => b :: batchLoopObs (batchUpdate b i) rest

/-- `TrainingService._execute_batch_processing` on a batch of `n`
documents: run the loop, then mark the run `completed` with progress
`100.0`. -/
def execute_batch_processing (n : Nat) : BatchRun :=
  let b := batchLoop (initBatchRun n) (List.range n)
  { b with status := "completed", progress_percentage := 100 }

/-- Every state of the batch run observable from registration to
completion. -/
def batch_observations (n : Nat) : List BatchRun :=
  batchLoopObs (initBatchRun n) (List.range n) ++ [execute_batch_processing n]

/-- The successive values the batch loop writes to `progress_percentage`:
`0.0` at registration, `((i+1)/n)*100` after each document, `100.0` at
completion. -/
def batch_progress_writes (n : Nat) : List ℚ :=
  0 :: (((List.range n).map fun i : ℕ => ((i : ℚ) + 1) / (n : ℚ) * 100) ++ [100])

/-! ## Training-job execution (`_execute_training_job`) -/

/-- The weighted step list of `_execute_training_job`. -/
def training_steps : List (String × Nat) :=
  [("Preparing data", 10), ("Generating embeddings", 30), ("Training model", 40),
   ("Validating model", 15), ("Finalizing", 5)]

/-- The values the step loop writes to `progress_percentage`: at the top of
each iteration the running total so far, after the simulated work
`min(total + weight, 100)`. -/
def stepWrites : List (String × Nat) → Nat → List ℚ
  | [], _ => []
  | (_, w) :: rest, total =>
      (total : ℚ) :: (min (total + w) 100 : ℕ) :: stepWrites rest (total + w)

/-- All values written to the job's `progress_percentage` on the success
path: `0.0` at `start_training_job`, the loop writes, `100.0` at
completion. -/
def training_progress_writes : List ℚ :=
  0 :: stepWrites training_steps 0 ++ [100]

/-- The job's progress after the first `k` steps have completed, as the
loop maintains it (`min(total, 100)` over the cumulative weight). -/
def cumProgress (k : Nat) : ℚ :=
  (min (((training_steps.take k).map Prod.snd).sum) 100 : ℕ)

/-! ## Job orchestrator state machine (`start` / `cancel` / background task) -/

/-- The durable columns of one training job that the state machine reads
and writes. -/
structure JobState where
  status : TrainingStatusEnum
  progress_percentage : ℚ
  started_at : Bool
  completed_at : Bool
  deriving DecidableEq, Repr

/-- The orchestrator's state for a single job id: the job row (persisted or
absent), the number of `ModelVersion` rows whose `training_job_id`
references it, whether `active_jobs` holds a task for it, and the task's
next step index. -/
structure OrchState where
  job : Option JobState
  modelVersions : Nat
  taskActive : Bool
  pc : Nat
  deriving DecidableEq, Repr

/-- `TrainingService.start_training_job`: on a missing job or on any
non-PENDING status the raised `ValueError` is caught and `False` is
returned with no state change; from PENDING the job moves to RUNNING with
`started_at` recorded and progress `0.0`, and one background task is
registered. -/
def start_training_job (s : OrchState) : Bool × OrchState :=
  match s.job with
  | none => (false, s)
  | some j =>
    if j.status = .pending then
      (true,
        { s with
          job := some { j with
                        status := .running
                        started_at := true
                        progress_percentage := 0 }
          taskActive := true
          pc := 0 })
    else (false, s)

/-- `TrainingService.cancel_training_job`: `False` on a missing job or on
any status other than RUNNING, with no state change; from RUNNING the job
moves to CANCELLED with `completed_at` recorded and the background task is
cancelled and deregistered. -/
def cancel_training_job (s : OrchState) : Bool × OrchState :=
  match s.job with
  | none => (false, s)
  | some j =>
    if j.status = .running then
      (true,
        { s with
          job := some { j with status := .cancelled, completed_at := true }
          taskActive := false })
    else (false, s)

/-- The orchestrator state right after `create_training_job` persisted a
job: PENDING, no model version, no task. -/
def createdState : OrchState :=
  { job := some
      { status := .pending, progress_percentage := 0,
        started_at := false, completed_at := false }
    modelVersions := 0
    taskActive := false
    pc := 0 }

/-- One transition of the orchestrator for a single job id: a successful
`start`, a successful `cancel` (cooperative cancellation: the task raises
`CancelledError` at its next await, which the `except Exception` handler
does not catch), one loop iteration of `_execute_training_job`, the
completion block (which sets COMPLETED, progress `100.0`, `completed_at`
and inserts exactly one `ModelVersion` row in the same commit), or an
exception inside a step (handler: FAILED, `completed_at`, no model
version).  Failed `start`/`cancel` calls leave the state unchanged and so
need no transition. -/
inductive OrchStep : OrchState → OrchState → Prop where
  | start (s : OrchState) :
      (start_training_job s).1 = true → OrchStep s (start_training_job s).2
  | cancel (s : OrchState) :
      (cancel_training_job s).1 = true → OrchStep s (cancel_training_job s).2
  | taskStep (s : OrchState) (j : JobState) :
      s.job = some j → s.taskActive = true → s.pc < 5 →
      OrchStep s
        { s with
          job := some { j with progress_percentage := cumProgress (s.pc + 1) }
          pc := s.pc + 1 }
  | taskComplete (s : OrchState) (j : JobState) :
      s.job = some j → s.taskActive = true → s.pc = 5 →
      OrchStep s
        { s with
          job := some { j with
                        status := .completed
                        completed_at := true
                        progress_percentage := 100 }
          modelVersions := s.modelVersions + 1
          taskActive := false }
  | taskFail (s : OrchState) (j : JobState) :
      s.job = some j → s.taskActive = true →
      OrchStep s
        { s with
          job := some { j with status := .failed, completed_at := true }
          taskActive := false }

/-- States of the orchestrator reachable from a freshly created job. -/
inductive Reachable : OrchState → Prop where
  | init : Reachable createdState
  | step {s s' : OrchState} : Reachable s → OrchStep s s' → Reachable s'

/-! ## Theorems -/

/-- C8: the source does not implement `relevance = 1 - distance` clamped to
`[0,1]`: a reported distance of `0.0` is falsy in Python and takes the
`0.5` default (the claim requires `1`), and a distance of `3/2` yields the
unclamped `-1/2`, outside the `[0,1]` range that the claim — and the
repository's own response schema, `DocumentSource.relevance_score` with
`ge=0.0, le=1.0` — requires. -/
theorem C8_relevance_score_eval :
    relevance_score (some 0) = 1/2 ∧
    relevance_score (some (3/2)) = -(1/2) ∧
    relevance_score none = 1/2 := by
  refine ⟨?_, ?_, rfl⟩ <;> norm_num [relevance_score]

/-- C1 (amended): tier filtering holds on every path on which the inner
(filtered) query does not raise — every chunk returned then is the
formatting of an index object whose `knowledge_base_tier` is at most the
caller's tier, and the same holds of every source cited by the full
pipeline; the claim's further assertion about the path on which the
filtered query raises is refuted by `C1_counterexample`. -/
theorem C1_tier_filtering_no_inner_raise :
    ∀ (ready outerRaises genaiAvailable genaiRaises : Bool)
      (results : List RawChunk) (query synthText : String) (tier lim : Nat),
      (∀ fc ∈ search_similar_documents ready false outerRaises results tier lim,
        ∃ r ∈ results, tierOf r ≤ tier ∧ fc = formatChunk r) ∧
      (∀ src ∈ (process_query ready false outerRaises genaiAvailable genaiRaises
            results query synthText tier).sources,
        ∃ r ∈ results, tierOf r ≤ tier ∧ src = mkSource (formatChunk r)) := by
  intro ready outerRaises genaiAvailable genaiRaises results query synthText tier lim
  have hsel : ∀ lim' fc,
      fc ∈ search_similar_documents ready false outerRaises results tier lim' →
      ∃ r ∈ results, tierOf r ≤ tier ∧ fc = formatChunk r := by
    intro lim' fc hfc
    unfold search_similar_documents at hfc
    split at hfc
    · simp at hfc
    · split at hfc
      · rcases List.mem_map.mp hfc with ⟨r, hrsel, hfmt⟩
        unfold selectChunks at hrsel
        rw [if_neg (by simp)] at hrsel
        have hrfil := List.mem_of_mem_take hrsel
        rcases List.mem_filter.mp hrfil with ⟨hrmem, hrtier⟩
        exact ⟨r, hrmem, by simpa using hrtier, hfmt.symm⟩
      · simp at hfc
  refine ⟨hsel lim, ?_⟩
  intro src hsrc
  unfold process_query generate_ai_response at hsrc
  split at hsrc
  · simp at hsrc
  · split at hsrc
    · simp at hsrc
    · rcases List.mem_map.mp hsrc with ⟨fc, hfc, hmk⟩
      rcases hsel 5 fc hfc with ⟨r, hrmem, hrtier, hfceq⟩
      exact ⟨r, hrmem, hrtier, by rw [← hmk, hfceq]⟩

/-- The objects a mocked vector index returns in the scenario of the
claim: chunks tagged tiers 1, 2 and 3. -/
def mockedIndexResults : List RawChunk :=
  [{ doc_id := 1, title := "d1", content := "c1",
     knowledge_base_tier := some 1, distance := some 0 },
   { doc_id := 2, title := "d2", content := "c2",
     knowledge_base_tier := some 2, distance := some 0 },
   { doc_id := 3, title := "d3", content := "c3",
     knowledge_base_tier := some 3, distance := some 0 }]

/-- C1 (counterexample): with caller tier 2 and the mocked index of tiers
`[1,2,3]`, on the path where the inner filtered query raises (the
`except` branch of the inner `try`), the formatting of the tier-3 object —
whose tier exceeds the caller's tier 2 — appears in the returned results:
the defense-in-depth filter is skipped on that path. -/
theorem C1_counterexample :
    formatChunk { doc_id := 3, title := "d3", content := "c3",
                  knowledge_base_tier := some 3, distance := some 0 } ∈
      search_similar_documents true true false mockedIndexResults 2 5 ∧
    tierOf { doc_id := 3, title := "d3", content := "c3",
             knowledge_base_tier := some 3, distance := some 0 } = 3 ∧
    ¬(3 ≤ 2) := by
  refine ⟨?_, rfl, by omega⟩
  simp [search_similar_documents, selectChunks, mockedIndexResults]

/-- C1 witness: the amended theorem applied on the normal path of the
mocked scenario — the tier-2 chunk is returned and traced back to a
visible index object. -/
theorem C1_witness :
    ∃ r ∈ mockedIndexResults, tierOf r ≤ 2 ∧
      formatChunk { doc_id := 2, title := "d2", content := "c2",
                    knowledge_base_tier := some 2, distance := some 0 }
        = formatChunk r :=
  (C1_tier_filtering_no_inner_raise true false true false mockedIndexResults
    ("pump vibration") ("ok") 2 5).1
    (formatChunk { doc_id := 2, title := "d2", content := "c2",
                   knowledge_base_tier := some 2, distance := some 0 })
    (by simp [search_similar_documents, selectChunks, mockedIndexResults, tierOf])

/-- C2: whenever the response synthesizer is unavailable
(`genaiAvailable = false`) or raises (`genaiRaises = true`), the pipeline
returns a record with confidence at most `0.3` and an empty sources list —
for every state of the vector index (reachable or not, raising or not), so
in particular in the scenario with an unreachable vector index.
`process_query` itself never raises for a well-formed request: it is
embedded as a total function because every exception path of
`search_similar_documents` and `generate_ai_response` is caught in the
source and returns a record, and the outer handler of `process_query`
covers any remainder. -/
theorem C2_degraded_not_failed :
    ∀ (ready innerRaises outerRaises genaiAvailable genaiRaises : Bool)
      (indexResults : List RawChunk) (query synthText : String) (tier : Nat),
      genaiAvailable = false ∨ genaiRaises = true →
      (process_query ready innerRaises outerRaises genaiAvailable genaiRaises
          indexResults query synthText tier).confidence ≤ 3/10 ∧
      (process_query ready innerRaises outerRaises genaiAvailable genaiRaises
          indexResults query synthText tier).sources = [] := by
  intro ready innerRaises outerRaises genaiAvailable genaiRaises
    indexResults query synthText tier h
  unfold process_query generate_ai_response
  rcases h with h | h
  · subst h; simp
  · subst h
    cases genaiAvailable with
    | false => simp
    | true => norm_num

/-- C2 witness: the unreachable-index, unreachable-synthesizer scenario of
the spec at tier 1. -/
theorem C2_witness :
    (process_query false false false false false [] ("how to fix pump") ("") 1).confidence
        ≤ 3/10 ∧
    (process_query false false false false false [] ("how to fix pump") ("") 1).sources
        = [] :=
  C2_degraded_not_failed false false false false false [] ("how to fix pump") ("") 1
    (Or.inl rfl)

/-- C9: every job `create_training_job` persists carries
`estimated_duration_minutes = base(training_type) + 2 * document_count`
with base full=60, incremental=30, batch=45, real_time=15; an incremental
job over three documents gets 36. -/
theorem C9_estimated_duration :
    (∀ (db : List Document) (name : String) (t : TrainingTypeEnum)
        (mt : ModelTypeEnum) (tier : Nat) (ids : List Nat) (job : TrainingJobRow),
      create_training_job db name t mt tier ids = .ok job →
      job.estimated_duration_minutes =
        (match t with
         | .full => 60
         | .incremental => 30
         | .batch => 45
         | .real_time => 15) + 2 * ids.length) ∧
    estimate_training_duration .incremental 3 = 36 := by
  refine ⟨?_, by decide⟩
  intro db name t mt tier ids job hok
  unfold create_training_job at hok
  split at hok
  · exact absurd hok (by simp)
  · have hjob : job =
        { name := name, training_type := t, model_type := mt,
          knowledge_base_tier := tier, status := .pending,
          estimated_duration_minutes :=
            estimate_training_duration t ids.length } := by
      injection hok with h; exact h.symm
    subst hjob
    unfold estimate_training_duration
    cases t <;> simp <;> omega

/-- The three tier-1 documents of the spec's creation scenario. -/
def scenarioDocs : List Document :=
  [{ id := 1, knowledge_base_tier := 1 },
   { id := 2, knowledge_base_tier := 1 },
   { id := 3, knowledge_base_tier := 1 }]

/-- C9 witness: the spec's scenario — incremental job over documents
`[1,2,3]` at tier 1 — yields `estimated_duration_minutes = 30 + 6`. -/
theorem C9_witness :
    ({ name := "Customer KB Update", training_type := .incremental,
       model_type := .embedding, knowledge_base_tier := 1, status := .pending,
       estimated_duration_minutes := 36 } : TrainingJobRow).estimated_duration_minutes
      = 30 + 2 * ([1, 2, 3] : List Nat).length :=
  C9_estimated_duration.1 scenarioDocs ("Customer KB Update") .incremental .embedding
    1 [1, 2, 3] _ (by rfl)

/-- C10: `generate_embeddings` is total (embedded as a total function:
each branch mirrors one return of the source, whose handler catches every
exception) and always returns 384 entries — on the primary path by the
embedding-provider contract (`primary.length = 384`), on the md5-fallback
path and on the exception path by construction.  The fallback is a
function of the text's 16-byte digest alone (so equal texts give equal
vectors and the external model input is irrelevant), every fallback entry
lies in `[0,1]`, all entries past the first 16 are zero, and the exception
path returns the all-zero vector. -/
theorem C10_generate_embeddings_total :
    ∀ (modelAvailable raises : Bool) (digestBytes : List Nat) (primary : List ℚ),
      digestBytes.length = 16 →
      (∀ b ∈ digestBytes, b < 256) →
      primary.length = 384 →
      (generate_embeddings modelAvailable raises digestBytes primary).length = 384 ∧
      (raises = true →
        generate_embeddings modelAvailable raises digestBytes primary
          = List.replicate 384 0) ∧
      (generate_embeddings false false digestBytes primary
          = fallbackEmbedding digestBytes) ∧
      (∀ primary2, generate_embeddings false false digestBytes primary2
          = generate_embeddings false false digestBytes primary) ∧
      (∀ q ∈ fallbackEmbedding digestBytes, 0 ≤ q ∧ q ≤ 1) ∧
      (fallbackEmbedding digestBytes).drop 16 = List.replicate 368 0 := by
  intro modelAvailable raises digestBytes primary hlen hbytes hprim
  have hmaplen : (digestBytes.map fun b : ℕ => (b : ℚ) / 255).length = 16 := by
    rw [List.length_map, hlen]
  have hfull : fallbackEmbedding digestBytes =
      (digestBytes.map fun b : ℕ => (b : ℚ) / 255) ++ List.replicate 368 0 := by
    unfold fallbackEmbedding
    rw [hlen]
    exact List.take_of_length_le
      (by rw [List.length_append, hmaplen, List.length_replicate])
  refine ⟨?_, ?_, rfl, fun primary2 => rfl, ?_, ?_⟩
  · unfold generate_embeddings
    split
    · rw [List.length_replicate]
    · split
      · exact hprim
      · rw [hfull, List.length_append, hmaplen, List.length_replicate]
  · intro hr; subst hr; rfl
  · intro q hq
    rw [hfull] at hq
    rcases List.mem_append.mp hq with hq | hq
    · rcases List.mem_map.mp hq with ⟨b, hb, rfl⟩
      have hb' : (b : ℚ) ≤ 255 := by
        have hb255 := hbytes b hb
        exact_mod_cast Nat.le_of_lt_succ hb255
      constructor
      · positivity
      · rw [div_le_one (by norm_num)]; exact hb'
    · rw [List.eq_of_mem_replicate hq]; norm_num
  · rw [hfull, List.drop_append_of_le_length (by rw [hmaplen]),
      List.drop_eq_nil_of_le (by rw [hmaplen]), List.nil_append]

/-- Splitting a filter over a pointwise-disjoint disjunction of predicates. -/
lemma filter_or_length (l : List Document) (p q : Document → Bool)
    (h : ∀ a ∈ l, ¬(p a = true ∧ q a = true)) :
    (l.filter fun a => p a || q a).length
      = (l.filter p).length + (l.filter q).length := by
  induction l with
  | nil => rfl
  | cons a t ih =>
    have ht := ih fun x hx => h x (List.mem_cons_of_mem _ hx)
    have ha := h a (List.mem_cons_self _ _)
    by_cases hp : p a = true
    · have hq : q a = false := by
        cases hqv : q a
        · rfl
        · exact absurd ⟨hp, hqv⟩ ha
      simp only [List.filter_cons, hp, hq, Bool.true_or, Bool.false_eq_true,
        if_true, if_false, List.length_cons, ht]
      omega
    · have hp' : p a = false := by
        cases hpv : p a
        · rfl
        · exact absurd hpv hp
      by_cases hq : q a = true
      · simp only [List.filter_cons, hp', hq, Bool.false_or, Bool.false_eq_true,
          if_true, if_false, List.length_cons, ht]
        omega
      · have hq' : q a = false := by
          cases hqv : q a
          · rfl
          · exact absurd hqv hq
        simp only [List.filter_cons, hp', hq', Bool.false_or, Bool.false_eq_true,
          if_false, ht]

/-- When the document table has pairwise-distinct primary keys, the rows
matching one fixed id at a tier bound number one when the id resolves and
zero otherwise. -/
lemma filter_single_id_length (db : List Document) (i T : Nat)
    (hdb : (db.map Document.id).Nodup) :
    (db.filter fun d => decide (d.id = i ∧ d.knowledge_base_tier ≤ T)).length
      = if resolvesAt db i T then 1 else 0 := by
  induction db with
  | nil => simp [resolvesAt]
  | cons d t ih =>
    rw [List.map_cons, List.nodup_cons] at hdb
    by_cases hd : d.id = i ∧ d.knowledge_base_tier ≤ T
    · have ht0 : (t.filter fun x => decide (x.id = i ∧ x.knowledge_base_tier ≤ T))
          = [] := by
        rw [List.filter_eq_nil_iff]
        intro x hx
        simp only [decide_eq_true_eq, not_and]
        intro hxi
        exfalso
        have hxmap : x.id ∈ t.map Document.id :=
          List.mem_map_of_mem Document.id hx
        rw [hxi, ← hd.1] at hxmap
        exact hdb.1 hxmap
      have hres : resolvesAt (d :: t) i T :=
        ⟨d, List.mem_cons_self _ _, hd⟩
      rw [List.filter_cons_of_pos (by simpa using hd), ht0, if_pos hres]
      rfl
    · have hres : resolvesAt (d :: t) i T ↔ resolvesAt t i T := by
        constructor
        · rintro ⟨x, hx, hxi, hxt⟩
          rcases List.mem_cons.mp hx with rfl | hx'
          · exact absurd ⟨hxi, hxt⟩ hd
          · exact ⟨x, hx', hxi, hxt⟩
        · rintro ⟨x, hx, hxi, hxt⟩
          exact ⟨x, List.mem_cons_of_mem _ hx, hxi, hxt⟩
      rw [List.filter_cons_of_neg (by simpa using hd), ih hdb.2]
      simp only [hres]

/-- Peeling one id off the access-count of `create_training_job` /
`process_batch` (distinct table keys, id not repeated). -/
lemma accessibleCount_cons (db : List Document) (i : Nat) (rest : List Nat)
    (T : Nat) (hdb : (db.map Document.id).Nodup) (hi : i ∉ rest) :
    accessibleCount db (i :: rest) T
      = (if resolvesAt db i T then 1 else 0) + accessibleCount db rest T := by
  unfold accessibleCount
  have hcongr : (db.filter fun d =>
        decide (d.id ∈ i :: rest ∧ d.knowledge_base_tier ≤ T))
      = db.filter fun d =>
          decide (d.id = i ∧ d.knowledge_base_tier ≤ T)
            || decide (d.id ∈ rest ∧ d.knowledge_base_tier ≤ T) := by
    apply List.filter_congr
    intro d _
    by_cases h1 : d.id = i <;> by_cases h2 : d.id ∈ rest <;>
      by_cases h3 : d.knowledge_base_tier ≤ T <;>
      simp [List.mem_cons, h1, h2, h3]
  rw [hcongr, filter_or_length _ _ _ ?_, filter_single_id_length db i T hdb]
  intro a _
  simp only [decide_eq_true_eq]
  rintro ⟨⟨hid, -⟩, ⟨hmem, -⟩⟩
  exact hi (hid ▸ hmem)

/-- With distinct ids and table keys the access count never exceeds the
number of requested ids. -/
lemma accessibleCount_le (db : List Document) (ids : List Nat) (T : Nat)
    (hdb : (db.map Document.id).Nodup) (hids : ids.Nodup) :
    accessibleCount db ids T ≤ ids.length := by
  induction ids with
  | nil => simp [accessibleCount]
  | cons i rest ih =>
    rw [List.nodup_cons] at hids
    rw [accessibleCount_cons db i rest T hdb hids.1]
    have := ih hids.2
    split <;> simp <;> omega

/-- The count comparison of the source equals "every requested id resolves
to an accessible document", provided ids are not repeated. -/
lemma accessibleCount_eq_length_iff (db : List Document) (ids : List Nat)
    (T : Nat) (hdb : (db.map Document.id).Nodup) (hids : ids.Nodup) :
    accessibleCount db ids T = ids.length ↔ ∀ i ∈ ids, resolvesAt db i T := by
  induction ids with
  | nil => simp [accessibleCount]
  | cons i rest ih =>
    rw [List.nodup_cons] at hids
    rw [accessibleCount_cons db i rest T hdb hids.1, List.length_cons]
    have hle := accessibleCount_le db rest T hdb hids.2
    constructor
    · intro heq
      by_cases hres : resolvesAt db i T
      · rw [if_pos hres] at heq
        intro x hx
        rcases List.mem_cons.mp hx with rfl | hx'
        · exact hres
        · exact ((ih hids.2).mp (by omega)) x hx'
      · rw [if_neg hres] at heq
        omega
    · intro hall
      rw [if_pos (hall i (List.mem_cons_self _ _))]
      have := (ih hids.2).mpr fun x hx => hall x (List.mem_cons_of_mem _ hx)
      omega

/-- C7 (amended): with pairwise-distinct document ids in the request (and
distinct primary keys in the table), `create_training_job` and
`process_batch` raise their `ValueError` exactly when some requested id
does not resolve to a document of tier at most the requested tier, and on
success `process_batch` registers a run covering every requested document
(nothing is dropped); the error branches of the embedding carry no record,
mirroring that a raise persists no job and registers no batch.  Without
the distinctness proviso the count comparison of the source also raises
on duplicated ids that all resolve (`C7_counterexample`). -/
theorem C7_validation_iff :
    ∀ (db : List Document) (name : String) (t : TrainingTypeEnum)
      (mt : ModelTypeEnum) (T : Nat) (ids : List Nat),
      (db.map Document.id).Nodup → ids.Nodup →
      ((∃ e, create_training_job db name t mt T ids = .error e) ↔
        ∃ i ∈ ids, ¬resolvesAt db i T) ∧
      ((∃ e, process_batch db ids T = .error e) ↔
        ∃ i ∈ ids, ¬resolvesAt db i T) ∧
      (∀ b, process_batch db ids T = .ok b →
        b.total_documents = ids.length ∧ b.status = "processing" ∧
        b.processed_documents = 0) := by
  intro db name t mt T ids hdb hids
  have hkey := accessibleCount_eq_length_iff db ids T hdb hids
  have hexists : (¬accessibleCount db ids T = ids.length) ↔
      ∃ i ∈ ids, ¬resolvesAt db i T := by
    constructor
    · intro hne
      by_contra hcon
      push_neg at hcon
      exact hne (hkey.mpr hcon)
    · rintro ⟨i, hi, hires⟩ heq
      exact hires (hkey.mp heq i hi)
  refine ⟨?_, ?_, ?_⟩
  · unfold create_training_job
    split
    · rename_i hcond
      constructor
      · intro _
        exact hexists.mp hcond.2
      · intro _
        exact ⟨_, rfl⟩
    · rename_i hcond
      rw [not_and_or] at hcond
      constructor
      · rintro ⟨e, he⟩
        exact absurd he (by simp)
      · rintro ⟨i, hi, hires⟩
        rcases hcond with hcond | hcond
        · rw [not_not] at hcond
          rw [hcond] at hi
          exact absurd hi (List.not_mem_nil i)
        · rw [not_not] at hcond
          exact absurd hcond (hexists.mpr ⟨i, hi, hires⟩)
  · unfold process_batch
    split
    · rename_i hcond
      constructor
      · intro _
        exact hexists.mp hcond
      · intro _
        exact ⟨_, rfl⟩
    · rename_i hcond
      rw [not_not] at hcond
      constructor
      · rintro ⟨e, he⟩
        exact absurd he (by simp)
      · rintro ⟨i, hi, hires⟩
        exact absurd hcond (hexists.mpr ⟨i, hi, hires⟩)
  · unfold process_batch
    split
    · intro b hb
      exact absurd hb (by simp)
    · rename_i hcond
      rw [not_not] at hcond
      intro b hb
      have hb' : initBatchRun (accessibleCount db ids T) = b := Except.ok.inj hb
      rw [← hb', hcond]
      exact ⟨rfl, rfl, rfl⟩

/-- C7 (counterexample): with a single tier-1 document of id 1, the request
`document_ids = [1, 1]` at tier 1 — every id of which resolves to an
accessible document — still raises in both `create_training_job` and
`process_batch`, because the source compares the count of matching rows
(1) with `len(document_ids)` (2).  The claim's "if and only if" is
therefore false as stated. -/
theorem C7_counterexample :
    create_training_job [{ id := 1, knowledge_base_tier := 1 }] ("dup") .full
        .embedding 1 [1, 1] = .error ("Some documents are not accessible") ∧
    process_batch [{ id := 1, knowledge_base_tier := 1 }] [1, 1] 1
        = .error ("Some documents are not accessible or do not exist") ∧
    ∀ i ∈ ([1, 1] : List Nat),
      resolvesAt [{ id := 1, knowledge_base_tier := 1 }] i 1 := by
  refine ⟨rfl, rfl, ?_⟩
  decide

/-- C7 witness: the amended theorem applied to the scenario table — batch
over the three distinct accessible ids registers a run over all three. -/
theorem C7_witness :
    (initBatchRun 3).total_documents = ([1, 2, 3] : List Nat).length ∧
    (initBatchRun 3).status = "processing" ∧
    (initBatchRun 3).processed_documents = 0 :=
  (C7_validation_iff scenarioDocs ("batch") .full .embedding 1 [1, 2, 3]
    (by decide) (by decide)).2.2 (initBatchRun 3) (by rfl)

/-- `start_training_job` reports success exactly when the job exists in
PENDING. -/
lemma start_fst_true_iff (s : OrchState) :
    (start_training_job s).1 = true ↔
      ∃ j, s.job = some j ∧ j.status = TrainingStatusEnum.pending := by
  unfold start_training_job
  cases hj : s.job with
  | none => simp
  | some j =>
    by_cases hp : j.status = TrainingStatusEnum.pending
    · simp [hp]
    · simp [hp]

/-- The successful `start` transition in full. -/
lemma start_spec (s : OrchState) (j : JobState) (hj : s.job = some j)
    (hp : j.status = TrainingStatusEnum.pending) :
    start_training_job s =
      (true,
        { s with
          job := some { j with
                        status := .running
                        started_at := true
                        progress_percentage := 0 }
          taskActive := true
          pc := 0 }) := by
  unfold start_training_job
  rw [hj]
  simp [hp]

/-- A failed `start` leaves the state unchanged. -/
lemma start_fst_false (s : OrchState)
    (h : (start_training_job s).1 = false) :
    (start_training_job s).2 = s := by
  unfold start_training_job at h ⊢
  cases hj : s.job with
  | none => simp
  | some j =>
    rw [hj] at h
    by_cases hp : j.status = TrainingStatusEnum.pending
    · simp [hp] at h
    · simp [hp]

/-- `cancel_training_job` reports success exactly when the job exists in
RUNNING. -/
lemma cancel_fst_true_iff (s : OrchState) :
    (cancel_training_job s).1 = true ↔
      ∃ j, s.job = some j ∧ j.status = TrainingStatusEnum.running := by
  unfold cancel_training_job
  cases hj : s.job with
  | none => simp
  | some j =>
    by_cases hp : j.status = TrainingStatusEnum.running
    · simp [hp]
    · simp [hp]

/-- The successful `cancel` transition in full. -/
lemma cancel_spec (s : OrchState) (j : JobState) (hj : s.job = some j)
    (hp : j.status = TrainingStatusEnum.running) :
    cancel_training_job s =
      (true,
        { s with
          job := some { j with
                        status := .cancelled
                        completed_at := true }
          taskActive := false }) := by
  unfold cancel_training_job
  rw [hj]
  simp [hp]

/-- A failed `cancel` leaves the state unchanged. -/
lemma cancel_fst_false (s : OrchState)
    (h : (cancel_training_job s).1 = false) :
    (cancel_training_job s).2 = s := by
  unfold cancel_training_job at h ⊢
  cases hj : s.job with
  | none => simp
  | some j =>
    rw [hj] at h
    by_cases hp : j.status = TrainingStatusEnum.running
    · simp [hp] at h
    · simp [hp]

/-- C4: the job state machine only performs legal transitions —
`start_training_job` returns true exactly from PENDING and then the job is
RUNNING with `started_at` recorded (so a second start on the same job
returns false: exactly one RUNNING transition); it returns false on a
missing or non-PENDING job, leaving the state unchanged.
`cancel_training_job` returns true exactly from RUNNING and then the job
is CANCELLED; otherwise it returns false leaving the state unchanged. -/
theorem C4_legal_transitions :
    ∀ s : OrchState,
      ((start_training_job s).1 = true ↔
        ∃ j, s.job = some j ∧ j.status = TrainingStatusEnum.pending) ∧
      ((start_training_job s).1 = false → (start_training_job s).2 = s) ∧
      (∀ j, s.job = some j → j.status = TrainingStatusEnum.pending →
        (start_training_job s).2.job =
          some { j with
                 status := .running
                 started_at := true
                 progress_percentage := 0 }) ∧
      ((start_training_job s).1 = true →
        (start_training_job (start_training_job s).2).1 = false) ∧
      ((cancel_training_job s).1 = true ↔
        ∃ j, s.job = some j ∧ j.status = TrainingStatusEnum.running) ∧
      ((cancel_training_job s).1 = false → (cancel_training_job s).2 = s) ∧
      (∀ j, s.job = some j → j.status = TrainingStatusEnum.running →
        (cancel_training_job s).2.job =
          some { j with
                 status := .cancelled
                 completed_at := true }) := by
  intro s
  refine ⟨start_fst_true_iff s, start_fst_false s, ?_, ?_,
    cancel_fst_true_iff s, cancel_fst_false s, ?_⟩
  · intro j hj hp
    rw [start_spec s j hj hp]
  · intro h
    rcases (start_fst_true_iff s).mp h with ⟨j, hj, hp⟩
    rw [start_spec s j hj hp]
    cases hv : (start_training_job
        ({ s with
           job := some { j with
                         status := .running
                         started_at := true
                         progress_percentage := 0 }
           taskActive := true
           pc := 0 } : OrchState)).1 with
    | false => rfl
    | true =>
      rcases (start_fst_true_iff _).mp hv with ⟨j', hj', hp'⟩
      have hj'' : { j with
                    status := TrainingStatusEnum.running
                    started_at := true
                    progress_percentage := (0 : ℚ) } = j' :=
        Option.some.inj hj'
      rw [← hj''] at hp'
      exact absurd hp' (by simp)
  · intro j hj hp
    rw [cancel_spec s j hj hp]

/-- C4 witness: starting a freshly created PENDING job succeeds, and a
second start of the same job fails. -/
theorem C4_witness :
    (start_training_job createdState).1 = true ∧
    (start_training_job (start_training_job createdState).2).1 = false := by
  have h := C4_legal_transitions createdState
  have h1 : (start_training_job createdState).1 = true := h.1.mpr ⟨_, rfl, rfl⟩
  exact ⟨h1, h.2.2.2.1 h1⟩

/-- The inductive invariant of the orchestrator: the job row exists, the
number of `ModelVersion` rows referencing it is 1 exactly in COMPLETED and
0 otherwise, and an active background task implies RUNNING. -/
def OrchInv (s : OrchState) : Prop :=
  ∃ j, s.job = some j ∧
    s.modelVersions = (if j.status = TrainingStatusEnum.completed then 1 else 0) ∧
    (s.taskActive = true → j.status = TrainingStatusEnum.running)

/-- The invariant holds in every reachable state. -/
lemma reachable_inv {s : OrchState} (h : Reachable s) : OrchInv s := by
  induction h with
  | init =>
    refine ⟨_, rfl, rfl, ?_⟩
    intro hc
    exact absurd hc (by simp [createdState])
  | step hr hstep ih =>
    rename_i s s'
    rcases ih with ⟨j, hj, hmv, htask⟩
    cases hstep with
    | start h1 =>
      rcases (start_fst_true_iff s).mp h1 with ⟨j', hj', hp⟩
      have hjj : j = j' := by
        rw [hj] at hj'
        exact Option.some.inj hj'
      rw [start_spec s j' hj' hp]
      refine ⟨_, rfl, ?_, fun _ => rfl⟩
      rw [hmv, hjj, hp]
      simp
    | cancel h1 =>
      rcases (cancel_fst_true_iff s).mp h1 with ⟨j', hj', hp⟩
      have hjj : j = j' := by
        rw [hj] at hj'
        exact Option.some.inj hj'
      rw [cancel_spec s j' hj' hp]
      refine ⟨_, rfl, ?_, ?_⟩
      · rw [hmv, hjj, hp]
        simp
      · intro hc
        exact absurd hc (by simp)
    | taskStep j2 hj2 htask2 hpc =>
      have hjj : j = j2 := by
        rw [hj] at hj2
        exact Option.some.inj hj2
      refine ⟨_, rfl, ?_, fun _ => ?_⟩
      · rw [hmv, hjj]
      · rw [← hjj]
        exact htask htask2
    | taskComplete j2 hj2 htask2 hpc =>
      have hjj : j = j2 := by
        rw [hj] at hj2
        exact Option.some.inj hj2
      have hrun : j.status = TrainingStatusEnum.running := htask htask2
      refine ⟨_, rfl, ?_, ?_⟩
      · rw [hmv, hrun]
        simp
      · intro hc
        exact absurd hc (by simp)
    | taskFail j2 hj2 htask2 =>
      have hjj : j = j2 := by
        rw [hj] at hj2
        exact Option.some.inj hj2
      have hrun : j.status = TrainingStatusEnum.running := htask htask2
      refine ⟨_, rfl, ?_, ?_⟩
      · rw [hmv, hrun]
        simp
      · intro hc
        exact absurd hc (by simp)

/-- C3: in every reachable orchestrator state, a `ModelVersion` referencing
the job exists exactly when the job is COMPLETED — and then exactly one —
and a job in CANCELLED or FAILED has no `ModelVersion` referencing it (in
the source, COMPLETED status and the `ModelVersion` insert are committed
together at the end of `_execute_training_job`; the step-failure handler
and `cancel_training_job` never reach that insert). -/
theorem C3_model_version_iff_completed :
    ∀ s : OrchState, Reachable s → ∀ j, s.job = some j →
      ((j.status = TrainingStatusEnum.completed ↔ s.modelVersions = 1) ∧
       s.modelVersions ≤ 1 ∧
       ((j.status = TrainingStatusEnum.cancelled ∨
         j.status = TrainingStatusEnum.failed) → s.modelVersions = 0)) := by
  intro s hs j hj
  rcases reachable_inv hs with ⟨j', hj', hmv, -⟩
  have hjj : j = j' := by
    rw [hj] at hj'
    exact Option.some.inj hj'
  subst hjj
  refine ⟨⟨?_, ?_⟩, ?_, ?_⟩
  · intro hc
    rw [hmv, if_pos hc]
  · intro h1
    by_contra hc
    rw [hmv, if_neg hc] at h1
    exact absurd h1 (by simp)
  · rw [hmv]
    split <;> omega
  · rintro (hc | hc) <;>
      rw [hmv, if_neg (by rw [hc]; simp)]

/-- The orchestrator state after `start` on a fresh job and `k` completed
steps of `_execute_training_job`. -/
def runningState (k : Nat) : OrchState :=
  { job := some
      { status := .running, progress_percentage := cumProgress k,
        started_at := true, completed_at := false }
    modelVersions := 0
    taskActive := true
    pc := k }

/-- The orchestrator state after the completion block of
`_execute_training_job`. -/
def completedState : OrchState :=
  { job := some
      { status := .completed, progress_percentage := 100,
        started_at := true, completed_at := true }
    modelVersions := 1
    taskActive := false
    pc := 5 }

/-- One loop iteration of the background task, at the reachability level. -/
lemma reachable_runningState_succ {k : Nat}
    (h : Reachable (runningState k)) (hk : k < 5) :
    Reachable (runningState (k + 1)) :=
  Reachable.step h (OrchStep.taskStep (runningState k) _ rfl rfl hk)

/-- The COMPLETED-with-one-ModelVersion state is reachable: create, start,
five steps, completion block. -/
lemma reachable_completedState : Reachable completedState := by
  have h0 : Reachable createdState := Reachable.init
  have h1 : Reachable (runningState 0) := by
    have hs := Reachable.step h0 (OrchStep.start createdState (by decide))
    have heq : (start_training_job createdState).2 = runningState 0 := by decide
    rwa [heq] at hs
  have h2 := reachable_runningState_succ h1 (by omega)
  have h3 := reachable_runningState_succ h2 (by omega)
  have h4 := reachable_runningState_succ h3 (by omega)
  have h5 := reachable_runningState_succ h4 (by omega)
  have h6 := reachable_runningState_succ h5 (by omega)
  exact Reachable.step h6 (OrchStep.taskComplete (runningState 5) _ rfl rfl rfl)

/-- C3 witness: the concrete run create → start → five steps → completion
carries exactly one `ModelVersion`. -/
theorem C3_witness : completedState.modelVersions = 1 :=
  ((C3_model_version_iff_completed completedState reachable_completedState
    { status := .completed, progress_percentage := 100,
      started_at := true, completed_at := true } rfl).1).mp rfl

/-- C5: the values written to `progress_percentage` are monotonically
non-decreasing and end at exactly 100 on success — for the training loop
(writes `0` at start, the running total at the top of each weighted step,
`min(total+weight, 100)` after it, and `100.0` at completion) and for every
batch run (writes `0` at registration, `((i+1)/n)*100` after each of the
`n` documents, `100.0` at completion).  The failure and cancellation
handlers write no progress, so the sequences below are exhaustive until a
terminal state. -/
theorem C5_progress_monotone :
    List.Chain' (· ≤ ·) training_progress_writes ∧
    training_progress_writes.getLast? = some 100 ∧
    ∀ n : Nat, List.Chain' (· ≤ ·) (batch_progress_writes n) ∧
      (batch_progress_writes n).getLast? = some 100 := by
  have htw : training_progress_writes =
      [0, 0, 10, 10, 40, 40, 80, 80, 95, 95, 100, 100] := by decide
  refine ⟨?_, ?_, ?_⟩
  · rw [htw]
    norm_num [List.chain'_cons, List.chain'_singleton]
  · rw [htw]
    rfl
  intro n
  constructor
  · unfold batch_progress_writes
    refine List.chain'_cons'.mpr ⟨?_, ?_⟩
    · intro h hh
      have hmem := List.mem_of_mem_head? hh
      rcases List.mem_append.mp hmem with hm | hm
      · rcases List.mem_map.mp hm with ⟨i, -, rfl⟩
        positivity
      · rw [List.mem_singleton] at hm
        rw [hm]
        norm_num
    · refine List.chain'_append.mpr ⟨?_, List.chain'_singleton 100, ?_⟩
      · rw [List.chain'_map]
        cases n with
        | zero => simp
        | succ m =>
          rw [List.chain'_range_succ]
          intro k hk
          have hnpos : (0 : ℚ) < ((m + 1 : ℕ) : ℚ) := by
            exact_mod_cast Nat.succ_pos m
          have hle : ((k : ℚ) + 1) ≤ (((k + 1 : ℕ) : ℚ) + 1) := by
            push_cast
            linarith
          exact mul_le_mul_of_nonneg_right
            ((div_le_div_iff_of_pos_right hnpos).mpr hle) (by norm_num)
      · intro x hx y hy
        rw [List.head?_cons, Option.mem_def, Option.some_inj] at hy
        cases n with
        | zero => simp at hx
        | succ m =>
          rw [List.range_succ, List.map_append, List.map_singleton,
            List.getLast?_concat, Option.mem_def, Option.some_inj] at hx
          have hne : ((m : ℚ) + 1) ≠ 0 := by positivity
          rw [← hx, ← hy]
          push_cast
          rw [div_self hne]
          norm_num
  · unfold batch_progress_writes
    rw [← List.cons_append, List.getLast?_concat]

/-- The loop of `_execute_batch_processing` never touches
`total_documents`. -/
lemma batchLoop_total (b : BatchRun) (l : List Nat) :
    (batchLoop b l).total_documents = b.total_documents := by
  induction l generalizing b with
  | nil => rfl
  | cons i t ih => rw [batchLoop, ih]; rfl

/-- Unrolling the last iteration of the batch loop. -/
lemma batchLoop_concat (b : BatchRun) (l : List Nat) (i : Nat) :
    batchLoop b (l ++ [i]) = batchUpdate (batchLoop b l) i := by
  induction l generalizing b with
  | nil => rfl
  | cons x t ih => rw [List.cons_append, batchLoop, batchLoop, ih]

/-- After the loop over a non-empty batch, every document is processed. -/
lemma batchLoop_processed (n : Nat) (hn : 0 < n) :
    (batchLoop (initBatchRun n) (List.range n)).processed_documents = n := by
  obtain ⟨m, rfl⟩ : ∃ m, n = m + 1 :=
    ⟨n - 1, by omega⟩
  rw [List.range_succ, batchLoop_concat]
  rfl

/-- Every state observable at a loop boundary keeps the `BatchRun`
invariant. -/
lemma batchLoopObs_inv (n : Nat) :
    ∀ (idxs : List Nat) (b : BatchRun),
      b.total_documents = n →
      (∀ i ∈ idxs, i < n) →
      b.processed_documents ≤ n →
      b.progress_percentage = 100 * (b.processed_documents : ℚ) / (n : ℚ) →
      ∀ x ∈ batchLoopObs b idxs,
        x.total_documents = n ∧ x.processed_documents ≤ n ∧
        x.progress_percentage = 100 * (x.processed_documents : ℚ) / (n : ℚ) := by
  intro idxs
  induction idxs with
  | nil =>
    intro b htot _ hproc hprog x hx
    rw [batchLoopObs, List.mem_singleton] at hx
    subst hx
    exact ⟨htot, hproc, hprog⟩
  | cons i t ih =>
    intro b htot hbound hproc hprog x hx
    rw [batchLoopObs] at hx
    rcases List.mem_cons.mp hx with rfl | hx'
    · exact ⟨htot, hproc, hprog⟩
    · refine ih (batchUpdate b i) ?_ ?_ ?_ ?_ x hx'
      · simpa [batchUpdate] using htot
      · intro y hy
        exact hbound y (List.mem_cons_of_mem _ hy)
      · have := hbound i (List.mem_cons_self _ _)
        simp only [batchUpdate]
        omega
      · simp only [batchUpdate, htot]
        push_cast
        ring

/-- C6: at every observation point of a batch run over `n ≥ 1` documents —
registration, each loop boundary, completion — `processed_documents` never
exceeds `total_documents` and `progress_percentage` equals
`100 * processed / total`; a batch over three documents completes with
`processed_documents = 3` and `progress_percentage = 100.0`.  (The API
schema requires `document_ids` to be non-empty, `min_length=1`, so `n ≥ 1`
for every request that passes validation.) -/
theorem C6_batch_invariant :
    (∀ n : Nat, 0 < n →
      ∀ b ∈ batch_observations n,
        b.processed_documents ≤ b.total_documents ∧
        b.progress_percentage =
          100 * (b.processed_documents : ℚ) / (b.total_documents : ℚ)) ∧
    (execute_batch_processing 3).status = "completed" ∧
    (execute_batch_processing 3).processed_documents = 3 ∧
    (execute_batch_processing 3).progress_percentage = 100 := by
  refine ⟨?_, by decide, by decide, by decide⟩
  intro n hn b hb
  unfold batch_observations at hb
  rcases List.mem_append.mp hb with hb | hb
  · have hinv := batchLoopObs_inv n (List.range n) (initBatchRun n) rfl
      (fun i hi => List.mem_range.mp hi) (Nat.zero_le n)
      (by simp [initBatchRun]) b hb
    rcases hinv with ⟨h1, h2, h3⟩
    rw [h1]
    exact ⟨h2, h3⟩
  · rw [List.mem_singleton] at hb
    subst hb
    have hne : ((n : ℚ)) ≠ 0 := by
      exact_mod_cast Nat.pos_iff_ne_zero.mp hn
    have hproc : (execute_batch_processing n).processed_documents = n := by
      show (batchLoop (initBatchRun n) (List.range n)).processed_documents = n
      exact batchLoop_processed n hn
    have htot : (execute_batch_processing n).total_documents = n := by
      show (batchLoop (initBatchRun n) (List.range n)).total_documents = n
      rw [batchLoop_total]
      rfl
    have hprog : (execute_batch_processing n).progress_percentage = 100 := rfl
    rw [hproc, htot, hprog]
    refine ⟨le_refl n, ?_⟩
    rw [mul_div_assoc, div_self hne, mul_one]

/-- C6 witness: the completed three-document batch satisfies the
invariant. -/
theorem C6_witness :
    (execute_batch_processing 3).processed_documents ≤
      (execute_batch_processing 3).total_documents :=
  (C6_batch_invariant.1 3 (by norm_num) (execute_batch_processing 3)
    (by decide)).1

/-- C10 witness: the all-zero digest. -/
theorem C10_witness :
    (generate_embeddings false false (List.replicate 16 0)
      (List.replicate 384 0)).length = 384 :=
  (C10_generate_embeddings_total false false (List.replicate 16 0)
    (List.replicate 384 0) (List.length_replicate 16 0)
    (fun b hb => by rw [List.eq_of_mem_replicate hb]; norm_num)
    (List.length_replicate 384 0)).1

end AiAssist
